import Mathlib

/-
Verification of the reactivity core (dependency tracking, batched scheduler,
reactive setters, array method interception) of a Vue-2 style framework.
The definitions below are shallow embeddings of the JavaScript source files
src/core/observer/watcher.js (Watcher class and observer/index.js),
src/core/instance/state.js (state init, computed getters, array methods,
scheduler) and src/core/util/next-tick.js. The Dep class itself is not part
of the provided sources (only its callers are); its subscriber bookkeeping is
modelled from the specification where needed, and such definitions are marked
in their doc comments.
-/

namespace VueCore

/-- JavaScript values as far as the reactive setter distinguishes them:
integers, NaN (the only value with x !== x), undefined, and container
references (objects or arrays identified by a heap id). -/
inductive JSVal where
  | int : Int → JSVal
  | nan : JSVal
  | undef : JSVal
  | obj : Nat → JSVal
deriving DecidableEq, Repr

/-- JavaScript strict equality (the === operator) on JSVal. NaN is not
strictly equal to itself; containers compare by reference identity. -/
def jsStrictEq : JSVal → JSVal → Bool
  | JSVal.int m, JSVal.int n => m == n
  | JSVal.undef, JSVal.undef => true
  | JSVal.obj a, JSVal.obj b => a == b
  | _, _ => false

/-- Test from observe / isObject: only container references are objects. -/
def isObjectVal : JSVal → Bool
  | JSVal.obj _ => true
  | _ => false

/-! Reactive property cell and the setter installed by defineReactive
(src/core/observer/index.js, function reactiveSetter). We model the common
case: no pre-existing getter/setter on the property, no customSetter, and
shallow = false. -/

/-- State of one reactive property: the stored value val (the closed-over
variable of defineReactive), whether the current value has a child Observer
attached (childOb), and the subscriber list of the key dep. -/
structure PropCell where
  val : JSVal
  childObserved : Bool
  subs : List Nat
deriving DecidableEq, Repr

/-- Result of one assignment through the reactive setter: the new cell state
and the list of watcher ids whose update method was invoked by dep.notify. -/
structure SetResult where
  cell : PropCell
  notified : List Nat
deriving DecidableEq, Repr

/-- Embedding of reactiveSetter: if the new value is strictly equal to the
old one, or both are self-unequal (NaN), return without effect; otherwise
store the new value, observe it (childOb update), and notify the key dep,
which synchronously invokes update on every current subscriber. -/
def reactiveSetter (cell : PropCell) (newVal : JSVal) : SetResult :=
  let value := cell.val
  if jsStrictEq newVal value || (!jsStrictEq newVal newVal && !jsStrictEq value value) then
    { cell := cell, notified := [] }
  else
    { cell := { cell with val := newVal, childObserved := isObjectVal newVal },
      notified := cell.subs }

/-! Lazy (computed) watcher: Watcher.update in the lazy branch
(src/core/observer/watcher.js lines 192-208), Watcher.evaluate, and
createComputedGetter (src/core/instance/state.js lines 285-309).
The computed getter under consideration reads two reactive integers a and b
and returns their sum, as in the specification scenario. -/

/-- State of a lazy computed watcher over the reactive values a and b:
dirty flag, cached value (none models the initial undefined), and a counter
of how many times the getter has been evaluated. -/
structure ComputedState where
  a : Int
  b : Int
  dirty : Bool
  value : Option Int
  evals : Nat
deriving DecidableEq, Repr

/-- Embedding of Watcher.evaluate for the a + b computed: runs the getter
(this.value = this.get()), counts the evaluation, and clears dirty. -/
def computedEval (s : ComputedState) : ComputedState :=
  { s with value := some (s.a + s.b), dirty := false, evals := s.evals + 1 }

/-- Embedding of Watcher.update in the lazy branch: only this.dirty = true,
no re-evaluation of the getter. -/
def lazyUpdate (s : ComputedState) : ComputedState :=
  { s with dirty := true }

/-- Embedding of createComputedGetter: if the watcher is dirty, evaluate it
(once), then return the cached watcher.value. -/
def computedRead (s : ComputedState) : ComputedState × Option Int :=
  let s1 := if s.dirty then computedEval s else s
  (s1, s1.value)

/-- Assignment to the reactive value a: the reactive setter short-circuits
when the value is unchanged, otherwise stores it and dep.notify invokes
update on the subscribed lazy watcher. -/
def computedSetA (v : Int) (s : ComputedState) : ComputedState :=
  if v = s.a then s else lazyUpdate { s with a := v }

/-! Watcher.teardown (src/core/observer/watcher.js lines 269-283) together
with the run guard on the active flag (lines 214-237). -/

/-- The part of a Watcher that teardown reads and writes: its id, the active
flag, and the list of dep ids it is currently subscribed to (this.deps). -/
structure TWatcher where
  id : Nat
  active : Bool
  deps : List Nat
deriving DecidableEq, Repr

/-- Environment that teardown mutates: the owning instance watcher list
(vm._watchers, as watcher ids), the vm._isBeingDestroyed flag, and every dep
subscriber list, keyed by dep id. -/
structure TEnv where
  vmWatchers : List Nat
  vmBeingDestroyed : Bool
  subs : List (Nat × List Nat)
deriving DecidableEq, Repr

/-- Modelled from the spec: Dep.removeSub (the Dep class source is not under
src/). Section 3 requires the subscriber set to support idempotent removal;
removing a watcher deletes every occurrence of it from the subscriber list
of the named dep. -/
def removeSubFrom (subs : List (Nat × List Nat)) (d : Nat) (wid : Nat) :
    List (Nat × List Nat) :=
  subs.map (fun p => if p.1 = d then (p.1, p.2.filter (fun x => x ≠ wid)) else p)

/-- Embedding of Watcher.teardown: when active, remove self from
vm._watchers (skipped when the vm is being destroyed), call removeSub on
every dep in this.deps, and clear the active flag; otherwise do nothing. -/
def teardown (w : TWatcher) (env : TEnv) : TWatcher × TEnv :=
  if w.active then
    let env1 :=
      if env.vmBeingDestroyed then env
      else { env with vmWatchers := env.vmWatchers.filter (fun x => x ≠ w.id) }
    let env2 :=
      { env1 with subs := w.deps.foldl (fun s d => removeSubFrom s d w.id) env1.subs }
    ({ w with active := false }, env2)
  else (w, env)

/-- Guard structure of Watcher.run: the callback can only fire when the
watcher is active and the re-evaluated value differs from the cached one, or
is a container, or the watcher is deep. -/
def runFiresCb (active : Bool) (newVal oldVal : JSVal) (deep : Bool) : Bool :=
  active && (!jsStrictEq newVal oldVal || isObjectVal newVal || deep)

/-! Public set operation (src/core/observer/index.js, function set), for a
plain-object target. The Array branch of set does not apply to an object
target, so set starts at the key-in-target test; existing-key assignment
delegates to the property setter and is modelled as a plain field update. -/

/-- Own-property names of Object.prototype, for the key-in-Object.prototype
test of set. -/
def objectProtoKeys : List String :=
  ["hasOwnProperty", "isPrototypeOf", "propertyIsEnumerable",
   "toLocaleString", "toString", "valueOf"]

/-- Plain-object target of set: the _isVue marker, own fields, whether it
has an Observer (__ob__), the observer vmCount, and the subscriber list of
the observer container dep. -/
structure VueTarget where
  isVue : Bool
  fields : List (String × JSVal)
  hasOb : Bool
  vmCount : Nat
  obDepSubs : List Nat
deriving DecidableEq, Repr

/-- Result of set: the updated target, the returned value, the watcher ids
notified through ob.dep.notify, whether defineReactive installed a new
reactive accessor, and whether the dev warning fired. -/
structure SetOutcome where
  target : VueTarget
  returned : JSVal
  notifiedSubs : List Nat
  definedReactive : Bool
  warned : Bool
deriving DecidableEq, Repr

/-- Embedding of set(target, key, val) for a plain-object target, with the
branch order of the source: existing own key updates in place; a Vue
instance or a root $data observer (vmCount > 0) warns and returns val with
no change; an unobserved target gets a plain non-reactive field; otherwise
defineReactive adds the key and ob.dep.notify fires. -/
def vueSet (t : VueTarget) (key : String) (val : JSVal) : SetOutcome :=
  if (key ∈ t.fields.map Prod.fst || key ∈ objectProtoKeys) && !(key ∈ objectProtoKeys) then
    { target := { t with fields := t.fields.map (fun p => if p.1 = key then (key, val) else p) },
      returned := val, notifiedSubs := [], definedReactive := false, warned := false }
  else if t.isVue || (t.hasOb && t.vmCount > 0) then
    { target := t, returned := val, notifiedSubs := [], definedReactive := false, warned := true }
  else if !t.hasOb then
    { target := { t with fields := t.fields ++ [(key, val)] },
      returned := val, notifiedSubs := [], definedReactive := false, warned := false }
  else
    { target := { t with fields := t.fields ++ [(key, val)] },
      returned := val, notifiedSubs := t.obDepSubs, definedReactive := true, warned := false }

/-! Wrapped array mutators (src/core/observer/array.js: methodsToPatch and
the mutator closure installed by def on arrayMethods). -/

/-- Array element as the observer distinguishes them: a primitive, or a
container (identified by a heap id) carrying its observed flag (whether an
Observer instance is attached to it). -/
inductive AElem where
  | prim : Int → AElem
  | box : Nat → Bool → AElem
deriving DecidableEq, Repr

/-- Effect of observe on one element: containers get an Observer attached
(observe is idempotent, re-observing keeps the flag set), primitives are
returned without effect. -/
def observeElem : AElem → AElem
  | AElem.prim n => AElem.prim n
  | AElem.box i _ => AElem.box i true

/-- Heap ids of the containers in a list of elements. -/
def containerIds (l : List AElem) : List Nat :=
  l.foldr (fun e acc => match e with | AElem.box i _ => i :: acc | _ => acc) []

/-- Effect of ob.observeArray(inserted) on the array contents: the inserted
elements are the same references that the native mutation placed into the
array, so every container occurrence with an inserted heap id becomes
observed. -/
def markObserved (ids : List Nat) (l : List AElem) : List AElem :=
  l.map (fun e => match e with
    | AElem.box i o => if i ∈ ids then AElem.box i true else AElem.box i o
    | AElem.prim n => AElem.prim n)

/-- Sort key standing in for the default comparator of the native sort. -/
def elemKey : AElem → Int
  | AElem.prim n => n
  | AElem.box i _ => Int.ofNat i

/-- Native sort, modelled as an ascending stable sort by elemKey. -/
def sortElems (l : List AElem) : List AElem :=
  List.insertionSort (fun a b => elemKey a ≤ elemKey b) l

/-- The seven mutating methods intercepted by methodsToPatch, with their
JavaScript arguments. -/
inductive ArrayOp where
  | push : List AElem → ArrayOp
  | pop : ArrayOp
  | shift : ArrayOp
  | unshift : List AElem → ArrayOp
  | splice : Nat → Nat → List AElem → ArrayOp
  | sort : ArrayOp
  | reverse : ArrayOp
deriving DecidableEq, Repr

/-- Return value of the native array methods: a new length (push, unshift),
a removed element or undefined (pop, shift), the removed slice (splice), or
the array itself (sort, reverse). -/
inductive NativeRet where
  | len : Nat → NativeRet
  | elem : Option AElem → NativeRet
  | removed : List AElem → NativeRet
  | arrRef : List AElem → NativeRet
deriving DecidableEq, Repr

/-- Native semantics of the seven methods (original.apply(this, args)):
the mutated array and the returned value. -/
def nativeApply : ArrayOp → List AElem → List AElem × NativeRet
  | ArrayOp.push args, arr => (arr ++ args, NativeRet.len (arr.length + args.length))
  | ArrayOp.pop, arr => (arr.dropLast, NativeRet.elem arr.getLast?)
  | ArrayOp.shift, arr => (arr.tail, NativeRet.elem arr.head?)
  | ArrayOp.unshift args, arr => (args ++ arr, NativeRet.len (args.length + arr.length))
  | ArrayOp.splice start delCount items, arr =>
      (arr.take start ++ items ++ arr.drop (start + delCount),
       NativeRet.removed ((arr.drop start).take delCount))
  | ArrayOp.sort, arr => (sortElems arr, NativeRet.arrRef (sortElems arr))
  | ArrayOp.reverse, arr => (arr.reverse, NativeRet.arrRef arr.reverse)

/-- The switch of the mutator: push and unshift insert their args, splice
inserts args.slice(2); the other methods insert nothing. -/
def insertedOf : ArrayOp → Option (List AElem)
  | ArrayOp.push args => some args
  | ArrayOp.unshift args => some args
  | ArrayOp.splice _ _ items => some items
  | _ => none

/-- Result of one wrapped mutator call: the final array, the value returned
to the caller, and how many times ob.dep.notify ran. -/
structure MutOut where
  arr : List AElem
  ret : NativeRet
  depNotify : Nat
deriving DecidableEq, Repr

/-- Embedding of the mutator closure: first the native mutation, then
observeArray on the newly inserted elements (when the method inserts any),
then exactly one ob.dep.notify, returning the native result. -/
def mutator (m : ArrayOp) (arr : List AElem) : MutOut :=
  let n := nativeApply m arr
  let arr2 := match insertedOf m with
    | some ins => markObserved (containerIds ins) n.1
    | none => n.1
  { arr := arr2, ret := n.2, depNotify := 1 }

/-! Dependency bookkeeping of one Watcher: addDep and cleanupDeps
(src/core/observer/watcher.js lines 151-185) and the push/pop plus finally
structure of Watcher.get (lines 109-146). Dep instances are identified by
their ids; a dep read during the getter calls dep.depend, which calls
addDep on the collecting watcher. -/

/-- Dependency generations of one Watcher: the previous-generation id set
(depIds) and dep list (deps), and the generation being collected (newDepIds
and newDeps). Dep objects are represented by their ids. -/
structure DepWatcher where
  depIds : List Nat
  deps : List Nat
  newDepIds : List Nat
  newDeps : List Nat
deriving DecidableEq, Repr

/-- Modelled from the spec: the subscriber side of the Dep class (dep.js is
not under src/). For one fixed watcher we track the set of dep ids whose
subscriber list contains it; per section 3 the subscriber set supports
idempotent add and remove. -/
structure SubsEnv where
  subscribed : List Nat
deriving DecidableEq, Repr

/-- Modelled from the spec: Dep.addSub for the tracked watcher, an
idempotent insertion into the subscriber set of dep d. -/
def addSubM (env : SubsEnv) (d : Nat) : SubsEnv :=
  if d ∈ env.subscribed then env else { subscribed := d :: env.subscribed }

/-- Modelled from the spec: Dep.removeSub for the tracked watcher, an
idempotent removal from the subscriber set of dep d. -/
def removeSubM (env : SubsEnv) (d : Nat) : SubsEnv :=
  { subscribed := env.subscribed.filter (fun x => x ≠ d) }

/-- Embedding of Watcher.addDep: skip if the dep id is already in the new
generation; otherwise record it in newDepIds and newDeps, and subscribe
(dep.addSub) only when it was not in the previous generation either. -/
def addDep (w : DepWatcher) (env : SubsEnv) (d : Nat) : DepWatcher × SubsEnv :=
  if d ∈ w.newDepIds then (w, env)
  else
    let w1 := { w with newDepIds := d :: w.newDepIds, newDeps := w.newDeps ++ [d] }
    if d ∈ w.depIds then (w1, env) else (w1, addSubM env d)

/-- Embedding of Watcher.cleanupDeps: walk this.deps from the end, calling
removeSub on every dep absent from the new generation; then swap the
generations and clear the new one. -/
def cleanupDeps (w : DepWatcher) (env : SubsEnv) : DepWatcher × SubsEnv :=
  let env1 := w.deps.foldr (fun d e => if d ∈ w.newDepIds then e else removeSubM e d) env
  ({ depIds := w.newDepIds, deps := w.newDeps, newDepIds := [], newDeps := [] }, env1)

/-- Dependency reads performed while the getter runs: each read calls
dep.depend, hence addDep on the collecting watcher, in order. -/
def collectReads (w : DepWatcher) (env : SubsEnv) (reads : List Nat) :
    DepWatcher × SubsEnv :=
  reads.foldl (fun p d => addDep p.1 p.2 d) (w, env)

/-- Dependency effect of one complete evaluation (Watcher.get): collect the
reads, then cleanupDeps in the finally block. -/
def watcherEvalDeps (w : DepWatcher) (env : SubsEnv) (reads : List Nat) :
    DepWatcher × SubsEnv :=
  let p := collectReads w env reads
  cleanupDeps p.1 p.2

/-- Outcome of one Watcher.get call: the value handed back to the caller
(an error when the getter threw and the watcher is not user-defined; ok none
models returning undefined after a handled error), the target stack after
the call, the reconciled dependency state, and the errors routed to
handleError. -/
structure GetOut (E : Type) where
  result : Except E (Option JSVal)
  stack : List Nat
  w : DepWatcher
  env : SubsEnv
  handled : List E
deriving Repr

/-- Embedding of Watcher.get: pushTarget(this); the getter performs its dep
reads and either produces a value or throws; a throw from a user watcher is
caught and routed to handleError while any other throw propagates; the
finally block pops the target and runs cleanupDeps on every path. -/
def watcherGet {E : Type} (user : Bool) (wid : Nat) (stack : List Nat)
    (w : DepWatcher) (env : SubsEnv) (g : Except E JSVal) (reads : List Nat) :
    GetOut E :=
  let stack1 := wid :: stack
  let p := collectReads w env reads
  let stack2 := stack1.tail
  let q := cleanupDeps p.1 p.2
  match g with
  | Except.ok v =>
      { result := Except.ok (some v), stack := stack2, w := q.1, env := q.2, handled := [] }
  | Except.error e =>
      if user then
        { result := Except.ok none, stack := stack2, w := q.1, env := q.2, handled := [e] }
      else
        { result := Except.error e, stack := stack2, w := q.1, env := q.2, handled := [] }

/-! Watcher id assignment (this.id = ++uid in the Watcher constructor,
src/core/observer/watcher.js line 69) and the flush order of
flushSchedulerQueue (src/core/instance/state.js scheduler part): the queue
is sorted ascending by id and run sequentially. -/

/-- Id handed out by one Watcher construction together with the new counter
value: the constructor executes this.id = ++uid. -/
def nextUid (uid : Nat) : Nat × Nat :=
  (uid + 1, uid + 1)

/-- Ids of n successive Watcher constructions starting from counter value
u0, in construction order. -/
def constructIds (u0 : Nat) : Nat → List Nat
  | 0 => []
  | n + 1 => (nextUid u0).1 :: constructIds (nextUid u0).2 n

/-- The queue.sort((a, b) => a.id - b.id) step: ascending sort of the
queued watcher ids. -/
def sortQueue (q : List Nat) : List Nat :=
  List.insertionSort (· ≤ ·) q

/-- Order in which the flush loop invokes run(): the loop walks the sorted
queue left to right, so the list position is the run position. -/
def flushOrder (queue : List Nat) : List Nat :=
  sortQueue queue

/-! Scheduler world for batching and the circular-update guard
(src/core/instance/state.js: queueWatcher, flushSchedulerQueue,
MAX_UPDATE_COUNT; src/core/util/next-tick.js: nextTick / flushCallbacks).
The world has one reactive integer property count, observed by one non-lazy,
non-sync user watcher; the callback behavior is a parameter eff telling what
the user callback writes back into count (none for a pure callback). -/

def MAX_UPDATE_COUNT : Nat := 100

/-- Process-wide scheduler and reactivity state: the stored property value,
the cached watcher value, the watcher queue and the pending-id set, the
dev-mode circular counter for the watcher, the waiting/flushing flags, the
flush cursor index, the number of flushSchedulerQueue callbacks registered
with nextTick, the log of run() invocations, the log of user callback
invocations (newValue, oldValue), and the likely-infinite-loop report
carrying the user flag of the runaway watcher. -/
structure RState where
  count : Int
  wvalue : Int
  queue : List Nat
  has : List Nat
  circular : Nat
  waiting : Bool
  flushing : Bool
  index : Nat
  scheduled : Nat
  runLog : List Nat
  cbLog : List (Int × Int)
  report : Option Bool
deriving DecidableEq, Repr

/-- State before any write: count 0, watcher value 0, empty scheduler. -/
def initialRState : RState :=
  { count := 0, wvalue := 0, queue := [], has := [], circular := 0,
    waiting := false, flushing := false, index := 0, scheduled := 0,
    runLog := [], cbLog := [], report := none }

/-- The while loop of the flushing branch of queueWatcher: starting from
i = queue.length - 1, walk left while i > index and queue[i].id > id; the
returned value is the final i (insertion happens at i + 1). -/
def spliceLoop (queue : List Nat) (index wid : Nat) : Nat → Nat
  | 0 => 0
  | i + 1 =>
    if i + 1 > index && queue.getD (i + 1) 0 > wid then spliceLoop queue index wid i
    else i + 1

/-- The queue.splice(i + 1, 0, watcher) insertion of queueWatcher when the
queue is being flushed. -/
def spliceById (queue : List Nat) (index wid : Nat) : List Nat :=
  let i := spliceLoop queue index wid (queue.length - 1)
  queue.insertIdx (i + 1) wid

/-- Embedding of queueWatcher: dedup on has; push to the tail when not
flushing, otherwise splice into sorted position after the cursor; schedule
one flushSchedulerQueue via nextTick when not already waiting (async
configuration). -/
def queueWatcherR (wid : Nat) (s : RState) : RState :=
  if wid ∈ s.has then s
  else
    let s1 := { s with has := wid :: s.has }
    let s2 :=
      if s1.flushing = false then { s1 with queue := s1.queue ++ [wid] }
      else { s1 with queue := spliceById s1.queue s1.index wid }
    if s2.waiting then s2
    else { s2 with waiting := true, scheduled := s2.scheduled + 1 }

/-- Embedding of the reactive setter for count followed by dep.notify: a
write of the current value short-circuits; otherwise the stored value
changes and update() on the (non-lazy, non-sync) subscribed watcher calls
queueWatcher. -/
def writeCount (wid : Nat) (v : Int) (s : RState) : RState :=
  if v = s.count then s
  else queueWatcherR wid { s with count := v }

/-- Embedding of Watcher.run for the count watcher: re-evaluate via get()
(re-reads count), and when the value changed (Int values are never objects
and the watcher is not deep) cache it and invoke the user callback, which
may itself write count again per the eff parameter. -/
def runWatcherR (eff : Int → Option Int) (wid : Nat) (s : RState) : RState :=
  let newVal := s.count
  let s1 := { s with runLog := s.runLog ++ [wid] }
  if newVal ≠ s1.wvalue then
    let oldVal := s1.wvalue
    let s2 := { s1 with wvalue := newVal, cbLog := s1.cbLog ++ [(newVal, oldVal)] }
    match eff newVal with
    | some v => writeCount wid v s2
    | none => s2
  else s1

/-- The for loop of flushSchedulerQueue, with explicit fuel: while the
cursor is inside the (live) queue, clear has[id], run the watcher, and in
dev mode bump the circular counter when the id re-appeared; past
MAX_UPDATE_COUNT, record the likely-infinite-loop report (warn identifies a
user watcher versus a render watcher) and break. -/
def flushLoop (eff : Int → Option Int) (wid : Nat) (user : Bool) :
    Nat → RState → RState
  | 0, s => s
  | fuel + 1, s =>
    if s.index < s.queue.length then
      let s1 := { s with has := s.has.filter (fun x => x ≠ wid) }
      let s2 := runWatcherR eff wid s1
      if wid ∈ s2.has then
        let s3 := { s2 with circular := s2.circular + 1 }
        if s3.circular > MAX_UPDATE_COUNT then { s3 with report := some user }
        else flushLoop eff wid user fuel { s3 with index := s3.index + 1 }
      else flushLoop eff wid user fuel { s2 with index := s2.index + 1 }
    else s

/-- Embedding of flushSchedulerQueue: set flushing, sort the queue
ascending by id, run the loop, then resetSchedulerState (clear queue, has,
cursor, circular, waiting and flushing) before any post-flush hooks. -/
def flushSchedulerQueueR (eff : Int → Option Int) (wid : Nat) (user : Bool)
    (fuel : Nat) (s : RState) : RState :=
  let s1 := { s with flushing := true, queue := sortQueue s.queue }
  let s2 := flushLoop eff wid user fuel s1
  { s2 with index := 0, queue := [], has := [], circular := 0,
            waiting := false, flushing := false }

/-- The microtask boundary: flushCallbacks runs the single registered
flushSchedulerQueue callback, if one was scheduled. -/
def microtaskBoundary (eff : Int → Option Int) (wid : Nat) (user : Bool)
    (fuel : Nat) (s : RState) : RState :=
  if s.scheduled = 0 then s
  else flushSchedulerQueueR eff wid user fuel { s with scheduled := 0 }

/-- A pure user callback: it writes nothing back. -/
def noCbWrite : Int → Option Int := fun _ => none

/-- A runaway user callback: on every invocation it writes a value into
count that differs from the one just observed. -/
def incCbWrite : Int → Option Int := fun v => some (v + 1)

/-- The synchronous phase: a burst of writes within one call stack. -/
def syncWrites (wid : Nat) (vs : List Int) (s : RState) : RState :=
  vs.foldl (fun st v => writeCount wid v st) s

/-- Scheduler state once one effective write has enqueued the watcher:
queue and has hold exactly the watcher, one flush is scheduled, and the
stored count is c. -/
def enqueuedAt (wid : Nat) (c : Int) : RState :=
  { initialRState with count := c, queue := [wid], has := [wid],
                       waiting := true, scheduled := 1 }

/-- State at the start of the flush loop for the runaway scenario: one
effective write of 1 has enqueued watcher 1, flushSchedulerQueue has set
the flushing flag and sorted the queue. -/
def runawayStart : RState :=
  { enqueuedAt 1 1 with flushing := true, queue := sortQueue (enqueuedAt 1 1).queue }

/-! Scheduler world with a set of reactive properties, all observed by one
non-lazy, non-sync user watcher (the same source functions as above:
defineReactive setters notifying their per-key deps, queueWatcher,
flushSchedulerQueue and nextTick). Properties are indexed, their values are
a list, and the watcher getter is a parameter reading the property list,
so writes to several distinct properties notify the same watcher through
several distinct deps and are deduplicated by id in queueWatcher. -/

/-- Process-wide state for the multi-property world: the stored property
values by index, the cached watcher value, and the scheduler state of
state.js (queue, pending-id set, circular counter, flags, cursor, number of
nextTick-registered flushes, run and callback logs, runaway report). -/
structure MState where
  props : List Int
  wvalue : Int
  queue : List Nat
  has : List Nat
  circular : Nat
  waiting : Bool
  flushing : Bool
  index : Nat
  scheduled : Nat
  runLog : List Nat
  cbLog : List (Int × Int)
  report : Option Bool
deriving DecidableEq, Repr

/-- State before any write: property values ps, cached watcher value w0
(from the construction-time evaluation), empty scheduler. -/
def initialMState (ps : List Int) (w0 : Int) : MState :=
  { props := ps, wvalue := w0, queue := [], has := [], circular := 0,
    waiting := false, flushing := false, index := 0, scheduled := 0,
    runLog := [], cbLog := [], report := none }

/-- Embedding of queueWatcher for the multi-property world: dedup on has,
tail push when not flushing (splice otherwise), schedule one flush via
nextTick when not already waiting. -/
def queueWatcherM (wid : Nat) (s : MState) : MState :=
  if wid ∈ s.has then s
  else
    let s1 := { s with has := wid :: s.has }
    let s2 :=
      if s1.flushing = false then { s1 with queue := s1.queue ++ [wid] }
      else { s1 with queue := spliceById s1.queue s1.index wid }
    if s2.waiting then s2
    else { s2 with waiting := true, scheduled := s2.scheduled + 1 }

/-- Embedding of the reactive setter of property k followed by the notify
of its key dep: a write of the stored value short-circuits; otherwise the
value is stored and update() on the subscribed non-lazy, non-sync watcher
calls queueWatcher. -/
def writeProp (wid : Nat) (k : Nat) (v : Int) (s : MState) : MState :=
  if v = s.props.getD k 0 then s
  else queueWatcherM wid { s with props := s.props.set k v }

/-- Embedding of Watcher.run for the multi-property watcher: re-evaluate
the getter over the current property values via get(), and when the value
changed (Int values are never objects, the watcher is not deep) cache it
and invoke the user callback with (newValue, oldValue). -/
def runWatcherM (getter : List Int → Int) (wid : Nat) (s : MState) : MState :=
  let newVal := getter s.props
  let s1 := { s with runLog := s.runLog ++ [wid] }
  if newVal ≠ s1.wvalue then
    { s1 with wvalue := newVal, cbLog := s1.cbLog ++ [(newVal, s1.wvalue)] }
  else s1

/-- The for loop of flushSchedulerQueue in the multi-property world, with
explicit fuel, including the dev-mode circular guard. -/
def flushLoopM (getter : List Int → Int) (wid : Nat) (user : Bool) :
    Nat → MState → MState
  | 0, s => s
  | fuel + 1, s =>
    if s.index < s.queue.length then
      let s1 := { s with has := s.has.filter (fun x => x ≠ wid) }
      let s2 := runWatcherM getter wid s1
      if wid ∈ s2.has then
        let s3 := { s2 with circular := s2.circular + 1 }
        if s3.circular > MAX_UPDATE_COUNT then { s3 with report := some user }
        else flushLoopM getter wid user fuel { s3 with index := s3.index + 1 }
      else flushLoopM getter wid user fuel { s2 with index := s2.index + 1 }
    else s

/-- Embedding of flushSchedulerQueue for the multi-property world: set
flushing, sort the queue ascending by id, run the loop, then
resetSchedulerState. -/
def flushSchedulerQueueM (getter : List Int → Int) (wid : Nat) (user : Bool)
    (fuel : Nat) (s : MState) : MState :=
  let s1 := { s with flushing := true, queue := sortQueue s.queue }
  let s2 := flushLoopM getter wid user fuel s1
  { s2 with index := 0, queue := [], has := [], circular := 0,
            waiting := false, flushing := false }

/-- The microtask boundary for the multi-property world: flushCallbacks
runs the single registered flushSchedulerQueue callback, if any. -/
def microtaskBoundaryM (getter : List Int → Int) (wid : Nat) (user : Bool)
    (fuel : Nat) (s : MState) : MState :=
  if s.scheduled = 0 then s
  else flushSchedulerQueueM getter wid user fuel { s with scheduled := 0 }

/-- The synchronous phase: a burst of writes (property index, new value)
within one call stack. -/
def syncWritesM (wid : Nat) (ws : List (Nat × Int)) (s : MState) : MState :=
  ws.foldl (fun st p => writeProp wid p.1 p.2 st) s

/-- Number of writes in a burst that are not equality-short-circuited,
starting from property values ps. -/
def effectiveCountM : List Int → List (Nat × Int) → Nat
  | _, [] => 0
  | ps, (k, v) :: ws =>
    if v = ps.getD k 0 then effectiveCountM ps ws
    else effectiveCountM (ps.set k v) ws + 1

/-- Property values after a burst of writes starting from ps. -/
def chainProps : List Int → List (Nat × Int) → List Int
  | ps, [] => ps
  | ps, (k, v) :: ws =>
    chainProps (if v = ps.getD k 0 then ps else ps.set k v) ws

/-- Scheduler state once one effective write has enqueued the watcher:
queue and has hold exactly the watcher, one flush is scheduled, and the
property values are ps. -/
def enqueuedM (wid : Nat) (ps : List Int) (w0 : Int) : MState :=
  { initialMState ps w0 with queue := [wid], has := [wid],
                             waiting := true, scheduled := 1 }

/-! Theorems. Helper lemmas come first, then one theorem per claim (with
witness and counterexample theorems where required). -/

theorem markObserved_of_disjoint (ids : List Nat) :
    ∀ l : List AElem, (∀ i ∈ containerIds l, i ∉ ids) → markObserved ids l = l := by
  intro l
  induction l with
  | nil => intro _; rfl
  | cons e t ih =>
    intro h
    cases e with
    | prim n =>
      have ht : ∀ i ∈ containerIds t, i ∉ ids := by
        intro i hi
        exact h i hi
      simp [markObserved] at ih ⊢
      exact ih ht
    | box i o =>
      have hin : i ∉ ids := h i (show i ∈ i :: containerIds t from List.mem_cons_self i _)
      have ht : ∀ j ∈ containerIds t, j ∉ ids := by
        intro j hj
        exact h j (show j ∈ i :: containerIds t from List.mem_cons_of_mem _ hj)
      simp [markObserved, hin] at ih ⊢
      exact ih ht

/-- Claim C3: for a property defined by defineReactive, assigning a value
strictly equal to the current one, or where both values are NaN, is a
no-op: the stored value and child observer are unchanged and dep.notify is
not reached, so no subscriber update() runs. -/
theorem reactiveSetter_equal_noop (cell : PropCell) (newVal : JSVal)
    (h : jsStrictEq newVal cell.val = true ∨ (newVal = JSVal.nan ∧ cell.val = JSVal.nan)) :
    reactiveSetter cell newVal = { cell := cell, notified := [] } := by
  unfold reactiveSetter
  rcases h with h | ⟨h1, h2⟩
  · simp [h]
  · rw [h1, h2]
    simp [jsStrictEq]

/-- Witness for C3 at a concrete cell: rewriting the value 4 over itself
with two subscribers changes nothing and notifies nobody. -/
theorem reactiveSetter_equal_noop_w :
    reactiveSetter { val := JSVal.int 4, childObserved := false, subs := [1, 2] } (JSVal.int 4) =
      { cell := { val := JSVal.int 4, childObserved := false, subs := [1, 2] }, notified := [] } :=
  reactiveSetter_equal_noop _ _ (Or.inl (by decide))

/-- Claim C7: a dependency notification on a lazy watcher only sets the
dirty flag (no re-evaluation, cached value untouched); a read evaluates the
getter exactly once per read-after-dirty and clears the flag. In the spec
scenario with a = 1, b = 2: the first read gives 3 after one evaluation,
mutating a to 5 triggers no evaluation, the next read evaluates once and
gives 7; two intervening mutations (a to 5 then 9) still cost a single
evaluation at the next read, which gives 11. -/
theorem lazy_watcher_dirty_and_memoized :
    (∀ s : ComputedState,
      (lazyUpdate s).evals = s.evals ∧ (lazyUpdate s).value = s.value ∧
      (lazyUpdate s).dirty = true) ∧
    ((computedRead { a := 1, b := 2, dirty := true, value := none, evals := 0 }).2 = some 3 ∧
     (computedRead { a := 1, b := 2, dirty := true, value := none, evals := 0 }).1.evals = 1 ∧
     (computedSetA 5 { a := 1, b := 2, dirty := false, value := some 3, evals := 1 }).evals = 1 ∧
     (computedSetA 5 { a := 1, b := 2, dirty := false, value := some 3, evals := 1 }).dirty = true ∧
     (computedRead { a := 5, b := 2, dirty := true, value := some 3, evals := 1 }).2 = some 7 ∧
     (computedRead { a := 5, b := 2, dirty := true, value := some 3, evals := 1 }).1.evals = 2 ∧
     (computedRead (computedSetA 9 (computedSetA 5
        { a := 1, b := 2, dirty := false, value := some 3, evals := 1 }))).2 = some 11 ∧
     (computedRead (computedSetA 9 (computedSetA 5
        { a := 1, b := 2, dirty := false, value := some 3, evals := 1 }))).1.evals = 2) := by
  constructor
  · intro s
    exact ⟨rfl, rfl, rfl⟩
  · decide

/-- Claim C6: every wrapped mutating method notifies the container dep
exactly once and returns the native result computed on the mutated array;
a method that inserts nothing leaves the native mutation untouched (shown
for pop), and a push of a fresh unobserved container performs the native
append and then observes the pushed element. -/
theorem array_mutator_once_and_observes (m : ArrayOp) (arr : List AElem) (i : Nat)
    (hfresh : i ∉ containerIds arr) :
    (mutator m arr).depNotify = 1 ∧
    (mutator m arr).ret = (nativeApply m arr).2 ∧
    (mutator ArrayOp.pop arr).arr = (nativeApply ArrayOp.pop arr).1 ∧
    (mutator (ArrayOp.push [AElem.box i false]) arr).arr = arr ++ [AElem.box i true] ∧
    (mutator (ArrayOp.push [AElem.box i false]) arr).depNotify = 1 := by
  refine ⟨rfl, rfl, rfl, ?_, rfl⟩
  show markObserved (containerIds [AElem.box i false]) (arr ++ [AElem.box i false]) =
    arr ++ [AElem.box i true]
  have hids : containerIds [AElem.box i false] = [i] := rfl
  rw [hids]
  have harr : markObserved [i] arr = arr :=
    markObserved_of_disjoint [i] arr (by
      intro j hj
      simp only [List.mem_singleton]
      intro hji
      exact hfresh (hji ▸ hj))
  calc markObserved [i] (arr ++ [AElem.box i false])
      = markObserved [i] arr ++ markObserved [i] [AElem.box i false] := by
        simp [markObserved]
    _ = arr ++ [AElem.box i true] := by
        rw [harr]
        simp [markObserved]

/-- Witness for C6: pushing the fresh container 7 onto an array holding a
primitive and the observed container 3. -/
theorem array_mutator_once_and_observes_w :
    (mutator (ArrayOp.push [AElem.box 7 false]) [AElem.prim 1, AElem.box 3 true]).arr =
      [AElem.prim 1, AElem.box 3 true] ++ [AElem.box 7 true] ∧
    (mutator (ArrayOp.push [AElem.box 7 false]) [AElem.prim 1, AElem.box 3 true]).depNotify = 1 :=
  ⟨(array_mutator_once_and_observes (ArrayOp.push [AElem.box 7 false])
      [AElem.prim 1, AElem.box 3 true] 7 (by decide)).2.2.2.1,
   (array_mutator_once_and_observes (ArrayOp.push [AElem.box 7 false])
      [AElem.prim 1, AElem.box 3 true] 7 (by decide)).2.2.2.2⟩

/-- Claim C10: on a Vue instance or on an object serving as root $data
(observer vmCount positive), the public set with a key that is not an own
property returns val and changes nothing: no field added, no reactive
accessor defined, no dep notification. -/
theorem set_on_vm_or_root_data_noop (t : VueTarget) (key : String) (val : JSVal)
    (hkey : key ∉ t.fields.map Prod.fst)
    (hvm : t.isVue = true ∨ (t.hasOb = true ∧ 0 < t.vmCount)) :
    vueSet t key val =
      { target := t, returned := val, notifiedSubs := [], definedReactive := false,
        warned := true } := by
  unfold vueSet
  have h1 : ¬(((key ∈ t.fields.map Prod.fst || key ∈ objectProtoKeys) &&
      !(key ∈ objectProtoKeys)) = true) := by
    by_cases hp : key ∈ objectProtoKeys
    · simp [hp]
    · simp [hp, hkey]
  rw [if_neg h1]
  rcases hvm with hv | ⟨ho, hc⟩
  · rw [if_pos (by simp [hv])]
  · rw [if_pos (by simp [ho, hc])]

/-- Witness for C10: a root $data object (vmCount 1) with one field x; a
set of the fresh key y is a pure no-op apart from the warning. -/
theorem set_on_vm_or_root_data_noop_w :
    vueSet { isVue := false, fields := [("x", JSVal.int 1)], hasOb := true, vmCount := 1,
             obDepSubs := [4] } "y" (JSVal.int 2) =
      { target := { isVue := false, fields := [("x", JSVal.int 1)], hasOb := true,
                    vmCount := 1, obDepSubs := [4] },
        returned := JSVal.int 2, notifiedSubs := [], definedReactive := false,
        warned := true } :=
  set_on_vm_or_root_data_noop _ "y" (JSVal.int 2) (by decide)
    (Or.inr ⟨rfl, by decide⟩)

theorem widAbsent_removeSubFrom (subs : List (Nat × List Nat)) (d wid key : Nat)
    (h : ∀ p ∈ subs, p.1 = key → wid ∉ p.2) :
    ∀ p ∈ removeSubFrom subs d wid, p.1 = key → wid ∉ p.2 := by
  intro p hp hk
  rcases List.mem_map.mp hp with ⟨q, hq, hpq⟩
  by_cases hqd : q.1 = d
  · rw [if_pos hqd] at hpq
    rw [← hpq]
    simp
  · rw [if_neg hqd] at hpq
    exact hpq ▸ h q hq (hpq ▸ hk)

theorem widAbsent_removeSubFrom_self (subs : List (Nat × List Nat)) (d wid : Nat) :
    ∀ p ∈ removeSubFrom subs d wid, p.1 = d → wid ∉ p.2 := by
  intro p hp hk
  rcases List.mem_map.mp hp with ⟨q, hq, hpq⟩
  by_cases hqd : q.1 = d
  · rw [if_pos hqd] at hpq
    rw [← hpq]
    simp
  · rw [if_neg hqd] at hpq
    exact absurd (hpq ▸ hk) hqd

theorem widAbsent_foldl (wid key : Nat) (ds : List Nat) :
    ∀ subs : List (Nat × List Nat), (∀ p ∈ subs, p.1 = key → wid ∉ p.2) →
      ∀ p ∈ ds.foldl (fun s d => removeSubFrom s d wid) subs, p.1 = key → wid ∉ p.2 := by
  induction ds with
  | nil => intro subs h; exact h
  | cons d ds ih =>
    intro subs h
    exact ih _ (widAbsent_removeSubFrom subs d wid key h)

theorem widAbsent_foldl_mem (wid : Nat) (ds : List Nat) :
    ∀ subs : List (Nat × List Nat), ∀ d ∈ ds,
      ∀ p ∈ ds.foldl (fun s x => removeSubFrom s x wid) subs, p.1 = d → wid ∉ p.2 := by
  induction ds with
  | nil => intro subs d hd; cases hd
  | cons d0 ds ih =>
    intro subs d hd
    rcases List.mem_cons.mp hd with hd0 | hds
    · subst hd0
      exact widAbsent_foldl wid d ds _ (widAbsent_removeSubFrom_self subs d wid)
    · exact ih _ d hds

/-- Counterexample to claim C9 as stated: when the owning vm is being
destroyed (vm._isBeingDestroyed), teardown deliberately skips removing the
watcher from vm._watchers, so after the first call the watcher is still
listed there, contradicting the removal part of the claim. -/
theorem teardown_destroyed_vm_keeps_listing :
    ((teardown { id := 3, active := true, deps := [] }
        { vmWatchers := [3], vmBeingDestroyed := true, subs := [] }).2).vmWatchers = [3] := by
  decide

/-- Claim C9 (amended): teardown is idempotent — the second call changes
nothing; the first call deactivates the watcher, removes it from every dep
subscriber list, and removes it from the owning instance watcher list
unless the instance is being destroyed (in which case the list removal is
skipped); and run on an inactive watcher never fires the callback. -/
theorem teardown_idempotent (w : TWatcher) (env : TEnv) :
    teardown (teardown w env).1 (teardown w env).2 = teardown w env ∧
    (teardown w env).1.active = false ∧
    (w.active = true → env.vmBeingDestroyed = false →
      w.id ∉ (teardown w env).2.vmWatchers) ∧
    (w.active = true → ∀ d ∈ w.deps, ∀ p ∈ (teardown w env).2.subs,
      p.1 = d → w.id ∉ p.2) ∧
    (∀ newVal oldVal deep, runFiresCb false newVal oldVal deep = false) := by
  refine ⟨?_, ?_, ?_, ?_, ?_⟩
  · have h1 : (teardown w env).1.active = false := by
      by_cases ha : w.active <;> simp [teardown, ha]
    rw [teardown, if_neg (by simp [h1])]
  · by_cases ha : w.active <;> simp [teardown, ha]
  · intro ha hd
    simp [teardown, ha, hd]
  · intro ha d hd p hp hk
    rw [teardown, if_pos ha] at hp
    exact widAbsent_foldl_mem w.id w.deps _ d hd p hp hk
  · intro newVal oldVal deep
    rfl

/-- Witness for C9 at a concrete watcher subscribed to deps 1 and 2 on a
live vm: double teardown equals single teardown, and the watcher id is
gone from the vm list and from the subscriber list of dep 1. -/
theorem teardown_idempotent_w :
    (teardown
        (teardown { id := 3, active := true, deps := [1, 2] }
          { vmWatchers := [3, 4], vmBeingDestroyed := false,
            subs := [(1, [3, 5]), (2, [3])] }).1
        (teardown { id := 3, active := true, deps := [1, 2] }
          { vmWatchers := [3, 4], vmBeingDestroyed := false,
            subs := [(1, [3, 5]), (2, [3])] }).2 =
      teardown { id := 3, active := true, deps := [1, 2] }
        { vmWatchers := [3, 4], vmBeingDestroyed := false,
          subs := [(1, [3, 5]), (2, [3])] }) ∧
    (3 ∉ (teardown { id := 3, active := true, deps := [1, 2] }
        { vmWatchers := [3, 4], vmBeingDestroyed := false,
          subs := [(1, [3, 5]), (2, [3])] }).2.vmWatchers) :=
  ⟨(teardown_idempotent { id := 3, active := true, deps := [1, 2] }
      { vmWatchers := [3, 4], vmBeingDestroyed := false,
        subs := [(1, [3, 5]), (2, [3])] }).1,
   (teardown_idempotent { id := 3, active := true, deps := [1, 2] }
      { vmWatchers := [3, 4], vmBeingDestroyed := false,
        subs := [(1, [3, 5]), (2, [3])] }).2.2.1 rfl rfl⟩

theorem addSubM_mem (env : SubsEnv) (r d : Nat) :
    d ∈ (addSubM env r).subscribed ↔ d ∈ env.subscribed ∨ d = r := by
  unfold addSubM
  by_cases h : r ∈ env.subscribed
  · rw [if_pos h]
    constructor
    · exact Or.inl
    · rintro (hd | rfl)
      · exact hd
      · exact h
  · rw [if_neg h]
    show d ∈ r :: env.subscribed ↔ _
    rw [List.mem_cons]
    tauto

theorem collectReads_spec (reads : List Nat) :
    ∀ (w : DepWatcher) (env : SubsEnv),
      (∀ d, d ∈ w.newDepIds ↔ d ∈ w.newDeps) →
      (∀ d, d ∈ w.newDepIds → d ∈ w.depIds ∨ d ∈ env.subscribed) →
      ((collectReads w env reads).1.depIds = w.depIds ∧
       (collectReads w env reads).1.deps = w.deps ∧
       (∀ d, d ∈ (collectReads w env reads).1.newDepIds ↔ d ∈ w.newDepIds ∨ d ∈ reads) ∧
       (∀ d, d ∈ (collectReads w env reads).1.newDeps ↔ d ∈ w.newDepIds ∨ d ∈ reads) ∧
       (∀ d, d ∈ (collectReads w env reads).2.subscribed ↔
          d ∈ env.subscribed ∨ (d ∈ reads ∧ d ∉ w.depIds))) := by
  induction reads with
  | nil =>
    intro w env hcons hsub
    refine ⟨rfl, rfl, ?_, ?_, ?_⟩
    · intro d
      show d ∈ w.newDepIds ↔ d ∈ w.newDepIds ∨ d ∈ ([] : List Nat)
      simp
    · intro d
      show d ∈ w.newDeps ↔ d ∈ w.newDepIds ∨ d ∈ ([] : List Nat)
      rw [← hcons d]
      simp
    · intro d
      show d ∈ env.subscribed ↔ d ∈ env.subscribed ∨ (d ∈ ([] : List Nat) ∧ d ∉ w.depIds)
      simp
  | cons r rs ih =>
    intro w env hcons hsub
    have hstep : collectReads w env (r :: rs) =
        collectReads (addDep w env r).1 (addDep w env r).2 rs := rfl
    by_cases h1 : r ∈ w.newDepIds
    · have ha : collectReads w env (r :: rs) = collectReads w env rs := by
        rw [hstep]
        have : addDep w env r = (w, env) := by
          rw [addDep, if_pos h1]
        rw [this]
      rw [ha]
      obtain ⟨hA, hB, hC, hD, hE⟩ := ih w env hcons hsub
      refine ⟨hA, hB, ?_, ?_, ?_⟩
      · intro d
        rw [hC d, List.mem_cons]
        constructor
        · rintro (hd | hd)
          · exact Or.inl hd
          · exact Or.inr (Or.inr hd)
        · rintro (hd | rfl | hd)
          · exact Or.inl hd
          · exact Or.inl h1
          · exact Or.inr hd
      · intro d
        rw [hD d, List.mem_cons]
        constructor
        · rintro (hd | hd)
          · exact Or.inl hd
          · exact Or.inr (Or.inr hd)
        · rintro (hd | rfl | hd)
          · exact Or.inl hd
          · exact Or.inl h1
          · exact Or.inr hd
      · intro d
        rw [hE d, List.mem_cons]
        constructor
        · rintro (hd | ⟨hdrs, hnd⟩)
          · exact Or.inl hd
          · exact Or.inr ⟨Or.inr hdrs, hnd⟩
        · rintro (hd | ⟨rfl | hdrs, hnd⟩)
          · exact Or.inl hd
          · rcases hsub d h1 with hdep | henv
            · exact absurd hdep hnd
            · exact Or.inl henv
          · exact Or.inr ⟨hdrs, hnd⟩
    · have hcons1 : ∀ d, d ∈ (r :: w.newDepIds) ↔ d ∈ (w.newDeps ++ [r]) := by
        intro d
        rw [List.mem_cons, List.mem_append, List.mem_singleton, ← hcons d]
        tauto
      by_cases h2 : r ∈ w.depIds
      · have ha : collectReads w env (r :: rs) = collectReads
            { w with newDepIds := r :: w.newDepIds, newDeps := w.newDeps ++ [r] } env rs := by
          rw [hstep]
          have : addDep w env r =
              ({ w with newDepIds := r :: w.newDepIds, newDeps := w.newDeps ++ [r] }, env) := by
            rw [addDep, if_neg h1]
            simp only [if_pos h2]
          rw [this]
        rw [ha]
        have hsub1 : ∀ d, d ∈ (r :: w.newDepIds) → d ∈ w.depIds ∨ d ∈ env.subscribed := by
          intro d hd
          rcases List.mem_cons.mp hd with rfl | hd
          · exact Or.inl h2
          · exact hsub d hd
        obtain ⟨hA, hB, hC, hD, hE⟩ :=
          ih { w with newDepIds := r :: w.newDepIds, newDeps := w.newDeps ++ [r] } env
            hcons1 hsub1
        refine ⟨hA, hB, ?_, ?_, ?_⟩
        · intro d
          rw [hC d]
          show d ∈ r :: w.newDepIds ∨ d ∈ rs ↔ _
          rw [List.mem_cons, List.mem_cons]
          tauto
        · intro d
          rw [hD d]
          show d ∈ r :: w.newDepIds ∨ d ∈ rs ↔ _
          rw [List.mem_cons, List.mem_cons]
          tauto
        · intro d
          rw [hE d]
          show d ∈ env.subscribed ∨ (d ∈ rs ∧ d ∉ w.depIds) ↔
            d ∈ env.subscribed ∨ (d ∈ r :: rs ∧ d ∉ w.depIds)
          rw [List.mem_cons]
          constructor
          · rintro (hd | ⟨hdrs, hnd⟩)
            · exact Or.inl hd
            · exact Or.inr ⟨Or.inr hdrs, hnd⟩
          · rintro (hd | ⟨rfl | hdrs, hnd⟩)
            · exact Or.inl hd
            · exact absurd h2 hnd
            · exact Or.inr ⟨hdrs, hnd⟩
      · have ha : collectReads w env (r :: rs) = collectReads
            { w with newDepIds := r :: w.newDepIds, newDeps := w.newDeps ++ [r] }
            (addSubM env r) rs := by
          rw [hstep]
          have : addDep w env r =
              ({ w with newDepIds := r :: w.newDepIds, newDeps := w.newDeps ++ [r] },
                addSubM env r) := by
            rw [addDep, if_neg h1]
            simp only [if_neg h2]
          rw [this]
        rw [ha]
        have hsub1 : ∀ d, d ∈ (r :: w.newDepIds) →
            d ∈ w.depIds ∨ d ∈ (addSubM env r).subscribed := by
          intro d hd
          rcases List.mem_cons.mp hd with rfl | hd
          · exact Or.inr ((addSubM_mem env d d).mpr (Or.inr rfl))
          · rcases hsub d hd with hdep | henv
            · exact Or.inl hdep
            · exact Or.inr ((addSubM_mem env r d).mpr (Or.inl henv))
        obtain ⟨hA, hB, hC, hD, hE⟩ :=
          ih { w with newDepIds := r :: w.newDepIds, newDeps := w.newDeps ++ [r] }
            (addSubM env r) hcons1 hsub1
        refine ⟨hA, hB, ?_, ?_, ?_⟩
        · intro d
          rw [hC d]
          show d ∈ r :: w.newDepIds ∨ d ∈ rs ↔ _
          rw [List.mem_cons, List.mem_cons]
          tauto
        · intro d
          rw [hD d]
          show d ∈ r :: w.newDepIds ∨ d ∈ rs ↔ _
          rw [List.mem_cons, List.mem_cons]
          tauto
        · intro d
          rw [hE d, addSubM_mem env r d]
          show (d ∈ env.subscribed ∨ d = r) ∨ (d ∈ rs ∧ d ∉ w.depIds) ↔
            d ∈ env.subscribed ∨ (d ∈ r :: rs ∧ d ∉ w.depIds)
          rw [List.mem_cons]
          constructor
          · rintro ((hd | rfl) | ⟨hdrs, hnd⟩)
            · exact Or.inl hd
            · exact Or.inr ⟨Or.inl rfl, h2⟩
            · exact Or.inr ⟨Or.inr hdrs, hnd⟩
          · rintro (hd | ⟨rfl | hdrs, hnd⟩)
            · exact Or.inl (Or.inl hd)
            · exact Or.inl (Or.inr rfl)
            · exact Or.inr ⟨hdrs, hnd⟩

theorem cleanupFold_mem (newIds : List Nat) (deps : List Nat) :
    ∀ (env : SubsEnv) (d : Nat),
      (d ∈ (deps.foldr (fun x e => if x ∈ newIds then e else removeSubM e x) env).subscribed ↔
        d ∈ env.subscribed ∧ ¬(d ∈ deps ∧ d ∉ newIds)) := by
  induction deps with
  | nil =>
    intro env d
    simp
  | cons x xs ih =>
    intro env d
    show d ∈ (if x ∈ newIds then
        xs.foldr (fun x e => if x ∈ newIds then e else removeSubM e x) env
      else removeSubM (xs.foldr (fun x e => if x ∈ newIds then e else removeSubM e x) env) x
      ).subscribed ↔ _
    by_cases hx : x ∈ newIds
    · rw [if_pos hx, ih env d]
      constructor
      · rintro ⟨he, hn⟩
        refine ⟨he, ?_⟩
        rintro ⟨hdx, hnotin⟩
        rcases List.mem_cons.mp hdx with rfl | hdxs
        · exact hnotin hx
        · exact hn ⟨hdxs, hnotin⟩
      · rintro ⟨he, hn⟩
        refine ⟨he, ?_⟩
        rintro ⟨hdxs, hnotin⟩
        exact hn ⟨List.mem_cons_of_mem _ hdxs, hnotin⟩
    · rw [if_neg hx]
      show d ∈ List.filter (fun y => y ≠ x)
        (xs.foldr (fun x e => if x ∈ newIds then e else removeSubM e x) env).subscribed ↔ _
      rw [List.mem_filter]
      rw [ih env d]
      constructor
      · rintro ⟨⟨he, hn⟩, hdx⟩
        refine ⟨he, ?_⟩
        rintro ⟨hdxxs, hnotin⟩
        rcases List.mem_cons.mp hdxxs with rfl | hdxs
        · simp at hdx
        · exact hn ⟨hdxs, hnotin⟩
      · rintro ⟨he, hn⟩
        have hdx : d ≠ x := by
          rintro rfl
          exact hn ⟨List.mem_cons_self _ _, hx⟩
        refine ⟨⟨he, ?_⟩, by simp only [decide_eq_true_eq]; exact hdx⟩
        rintro ⟨hdxs, hnotin⟩
        exact hn ⟨List.mem_cons_of_mem _ hdxs, hnotin⟩

/-- Claim C1: after any complete evaluation (Watcher.get), the active
dependency set of the watcher equals exactly the set of dep ids read during
that evaluation — the watcher is subscribed to every dep read, and it has
been removed from the subscriber list of every previously tracked dep that
was not read this time. Hypotheses state the inter-evaluation invariant
(new generation empty, subscriptions equal to the previous generation),
which the conclusions re-establish. -/
theorem watcher_deps_exact_after_eval (w : DepWatcher) (env : SubsEnv) (reads : List Nat)
    (h1 : w.newDepIds = []) (h2 : w.newDeps = [])
    (h3 : ∀ d, d ∈ env.subscribed ↔ d ∈ w.depIds)
    (h4 : ∀ d, d ∈ w.deps ↔ d ∈ w.depIds) :
    (∀ d, d ∈ (watcherEvalDeps w env reads).2.subscribed ↔ d ∈ reads) ∧
    (∀ d, d ∈ (watcherEvalDeps w env reads).1.depIds ↔ d ∈ reads) ∧
    (∀ d, d ∈ (watcherEvalDeps w env reads).1.deps ↔ d ∈ reads) ∧
    (watcherEvalDeps w env reads).1.newDepIds = [] ∧
    (watcherEvalDeps w env reads).1.newDeps = [] := by
  obtain ⟨hA, hB, hC, hD, hE⟩ := collectReads_spec reads w env
    (by rw [h1, h2]; intro d; exact Iff.rfl)
    (by rw [h1]; intro d hd; cases hd)
  have hC0 : ∀ d, d ∈ (collectReads w env reads).1.newDepIds ↔ d ∈ reads := by
    intro d
    rw [hC d, h1]
    simp
  have hD0 : ∀ d, d ∈ (collectReads w env reads).1.newDeps ↔ d ∈ reads := by
    intro d
    rw [hD d, h1]
    simp
  have hE0 : ∀ d, d ∈ (collectReads w env reads).2.subscribed ↔
      d ∈ w.depIds ∨ (d ∈ reads ∧ d ∉ w.depIds) := by
    intro d
    rw [hE d, h3 d]
  refine ⟨?_, hC0, hD0, rfl, rfl⟩
  intro d
  show d ∈ ((collectReads w env reads).1.deps.foldr
    (fun x e => if x ∈ (collectReads w env reads).1.newDepIds then e else removeSubM e x)
    (collectReads w env reads).2).subscribed ↔ d ∈ reads
  rw [cleanupFold_mem]
  rw [hE0 d, hB]
  have hdeps : d ∈ w.deps ↔ d ∈ w.depIds := h4 d
  have hnew : d ∈ (collectReads w env reads).1.newDepIds ↔ d ∈ reads := hC0 d
  constructor
  · rintro ⟨hl, hn⟩
    rcases hl with hdep | ⟨hr, _⟩
    · by_contra hnr
      exact hn ⟨hdeps.mpr hdep, fun hmem => hnr (hnew.mp hmem)⟩
    · exact hr
  · intro hr
    refine ⟨?_, ?_⟩
    · by_cases hdep : d ∈ w.depIds
      · exact Or.inl hdep
      · exact Or.inr ⟨hr, hdep⟩
    · rintro ⟨_, hnin⟩
      exact hnin (hnew.mpr hr)

/-- Witness for C1: a watcher previously subscribed to dep 5 evaluates and
reads only dep 7; afterwards it is subscribed to 7 and no longer to 5, and
its dependency set is exactly the reads. -/
theorem watcher_deps_exact_after_eval_w :
    (7 ∈ (watcherEvalDeps { depIds := [5], deps := [5], newDepIds := [], newDeps := [] }
        { subscribed := [5] } [7]).2.subscribed ↔ 7 ∈ [7]) ∧
    (5 ∈ (watcherEvalDeps { depIds := [5], deps := [5], newDepIds := [], newDeps := [] }
        { subscribed := [5] } [7]).2.subscribed ↔ 5 ∈ [7]) ∧
    (7 ∈ (watcherEvalDeps { depIds := [5], deps := [5], newDepIds := [], newDeps := [] }
        { subscribed := [5] } [7]).1.depIds ↔ 7 ∈ [7]) :=
  ⟨(watcher_deps_exact_after_eval { depIds := [5], deps := [5], newDepIds := [], newDeps := [] }
      { subscribed := [5] } [7] rfl rfl (fun _ => Iff.rfl) (fun _ => Iff.rfl)).1 7,
   (watcher_deps_exact_after_eval { depIds := [5], deps := [5], newDepIds := [], newDeps := [] }
      { subscribed := [5] } [7] rfl rfl (fun _ => Iff.rfl) (fun _ => Iff.rfl)).1 5,
   (watcher_deps_exact_after_eval { depIds := [5], deps := [5], newDepIds := [], newDeps := [] }
      { subscribed := [5] } [7] rfl rfl (fun _ => Iff.rfl) (fun _ => Iff.rfl)).2.1 7⟩

/-- Claim C8: Watcher.get never leaves the collection stack unbalanced —
the target pushed on entry is popped on every exit path, and dependency
generations are reconciled (cleanupDeps) even when the getter throws; a
throwing getter of a user watcher is caught and routed to the centralized
handler with get returning normally, while a throwing getter of a non-user
watcher propagates to the caller. -/
theorem watcher_get_exception_safe {E : Type} (user : Bool) (wid : Nat) (stack : List Nat)
    (w : DepWatcher) (env : SubsEnv) (g : Except E JSVal) (reads : List Nat) :
    (watcherGet user wid stack w env g reads).stack = stack ∧
    (watcherGet user wid stack w env g reads).w = (watcherEvalDeps w env reads).1 ∧
    (watcherGet user wid stack w env g reads).env = (watcherEvalDeps w env reads).2 ∧
    (∀ v, g = Except.ok v →
      (watcherGet user wid stack w env g reads).result = Except.ok (some v) ∧
      (watcherGet user wid stack w env g reads).handled = []) ∧
    (∀ e, g = Except.error e →
      (user = true →
        (watcherGet user wid stack w env g reads).result = Except.ok none ∧
        (watcherGet user wid stack w env g reads).handled = [e]) ∧
      (user = false →
        (watcherGet user wid stack w env g reads).result = Except.error e ∧
        (watcherGet user wid stack w env g reads).handled = [])) := by
  cases g with
  | ok v0 =>
    refine ⟨rfl, rfl, rfl, ?_, ?_⟩
    · intro v hv
      cases hv
      exact ⟨rfl, rfl⟩
    · intro e he
      cases he
  | error e0 =>
    cases user with
    | false =>
      refine ⟨rfl, rfl, rfl, ?_, ?_⟩
      · intro v hv
        cases hv
      · intro e he
        cases he
        exact ⟨fun h => absurd h (by decide), fun _ => ⟨rfl, rfl⟩⟩
    | true =>
      refine ⟨rfl, rfl, rfl, ?_, ?_⟩
      · intro v hv
        cases hv
      · intro e he
        cases he
        exact ⟨fun _ => ⟨rfl, rfl⟩, fun h => absurd h (by decide)⟩

/-- Witness for C8: a user watcher whose getter throws the error value 3
after reading dep 2; the stack is restored, get returns normally with
undefined, and the error is routed to handleError. -/
theorem watcher_get_exception_safe_w :
    (watcherGet (E := Nat) true 1 [9] { depIds := [], deps := [], newDepIds := [], newDeps := [] }
        { subscribed := [] } (Except.error 3) [2]).stack = [9] ∧
    (watcherGet (E := Nat) true 1 [9] { depIds := [], deps := [], newDepIds := [], newDeps := [] }
        { subscribed := [] } (Except.error 3) [2]).result = Except.ok none ∧
    (watcherGet (E := Nat) true 1 [9] { depIds := [], deps := [], newDepIds := [], newDeps := [] }
        { subscribed := [] } (Except.error 3) [2]).handled = [3] :=
  ⟨(watcher_get_exception_safe (E := Nat) true 1 [9]
      { depIds := [], deps := [], newDepIds := [], newDeps := [] }
      { subscribed := [] } (Except.error 3) [2]).1,
   ((watcher_get_exception_safe (E := Nat) true 1 [9]
      { depIds := [], deps := [], newDepIds := [], newDeps := [] }
      { subscribed := [] } (Except.error 3) [2]).2.2.2.2 3 rfl).1 rfl |>.1,
   ((watcher_get_exception_safe (E := Nat) true 1 [9]
      { depIds := [], deps := [], newDepIds := [], newDeps := [] }
      { subscribed := [] } (Except.error 3) [2]).2.2.2.2 3 rfl).1 rfl |>.2⟩

theorem constructIds_get? (n : Nat) :
    ∀ (u0 i : Nat), (constructIds u0 n).get? i =
      if i < n then some (u0 + 1 + i) else none := by
  induction n with
  | zero =>
    intro u0 i
    simp [constructIds]
  | succ n ih =>
    intro u0 i
    cases i with
    | zero =>
      show some (u0 + 1) = if 0 < n + 1 then some (u0 + 1 + 0) else none
      rw [if_pos (Nat.succ_pos n)]
    | succ i =>
      show (constructIds (u0 + 1) n).get? i = _
      rw [ih (u0 + 1) i]
      by_cases h : i < n
      · rw [if_pos h, if_pos (Nat.succ_lt_succ h)]
        congr 1
        omega
      · rw [if_neg h, if_neg (by omega)]

theorem indexOf_lt_of_sorted {l : List Nat} (hs : List.Pairwise (· ≤ ·) l) {a b : Nat}
    (ha : a ∈ l) (hb : b ∈ l) (hab : a < b) :
    l.indexOf a < l.indexOf b := by
  induction l with
  | nil => cases ha
  | cons x t ih =>
    have hx := (List.pairwise_cons.mp hs).1
    have ht := (List.pairwise_cons.mp hs).2
    by_cases hax : a = x
    · subst hax
      have hbt : b ∈ t := by
        rcases List.mem_cons.mp hb with rfl | h
        · exact absurd hab (lt_irrefl _)
        · exact h
      rw [List.indexOf_cons_self, List.indexOf_cons_ne _ (by omega : a ≠ b)]
      exact Nat.succ_pos _
    · have hat : a ∈ t := by
        rcases List.mem_cons.mp ha with rfl | h
        · exact absurd rfl hax
        · exact h
      have hbx : x ≠ b := by
        rintro rfl
        exact absurd (hx a hat) (by omega)
      have hbt : b ∈ t := by
        rcases List.mem_cons.mp hb with rfl | h
        · exact absurd rfl (Ne.symm hbx)
        · exact h
      rw [List.indexOf_cons_ne _ (fun h => hax h.symm), List.indexOf_cons_ne _ hbx]
      exact Nat.succ_lt_succ (ih ht hat hbt)

/-- Claim C4: watcher ids come from a monotonic counter (this.id = ++uid),
so a watcher constructed earlier has a strictly smaller id, and the
scheduler flush sorts the pending queue ascending by id and runs it
sequentially, so the earlier-constructed watcher occupies a strictly
earlier run position: its run() completes before the later one begins. -/
theorem construction_order_gives_flush_order (u0 n i j a b : Nat) (queue : List Nat)
    (hij : i < j) (hj : j < n)
    (ha : (constructIds u0 n).get? i = some a)
    (hb : (constructIds u0 n).get? j = some b)
    (haq : a ∈ queue) (hbq : b ∈ queue) :
    a < b ∧ (flushOrder queue).indexOf a < (flushOrder queue).indexOf b := by
  have hi : i < n := lt_trans hij hj
  rw [constructIds_get? n u0 i, if_pos hi] at ha
  rw [constructIds_get? n u0 j, if_pos hj] at hb
  have hab : a < b := by
    have ha2 : a = u0 + 1 + i := by
      exact (Option.some.injEq _ _).mp ha.symm
    have hb2 : b = u0 + 1 + j := by
      exact (Option.some.injEq _ _).mp hb.symm
    omega
  refine ⟨hab, ?_⟩
  have hsorted : List.Pairwise (· ≤ ·) (flushOrder queue) :=
    List.sorted_insertionSort (· ≤ ·) queue
  have hmem : ∀ c : Nat, c ∈ flushOrder queue ↔ c ∈ queue := by
    intro c
    exact (List.perm_insertionSort (· ≤ ·) queue).mem_iff
  exact indexOf_lt_of_sorted hsorted ((hmem a).mpr haq) ((hmem b).mpr hbq) hab

/-- Witness for C4: of four constructions from counter 0, the second (id 2)
and fourth (id 4) are both queued; in the flush order of the queue
[4, 3, 2] the id 2 runs strictly before the id 4. -/
theorem construction_order_gives_flush_order_w :
    2 < 4 ∧ (flushOrder [4, 3, 2]).indexOf 2 < (flushOrder [4, 3, 2]).indexOf 4 :=
  construction_order_gives_flush_order 0 4 1 3 2 4 [4, 3, 2] (by decide) (by decide)
    (by decide) (by decide) (by decide) (by decide)

/-- Counterexample to claim C2 as stated: a single synchronous write
(N = 1) of the value 0 into count, which already holds 0, is
equality-short-circuited by the reactive setter, so the watcher is never
enqueued and run() is invoked zero times — not exactly once. -/
theorem batching_noop_write_zero_runs :
    (syncWrites 1 [0] initialRState).queue = [] ∧
    (microtaskBoundary noCbWrite 1 true 2 (syncWrites 1 [0] initialRState)).runLog = [] ∧
    ¬((microtaskBoundary noCbWrite 1 true 2
        (syncWrites 1 [0] initialRState)).runLog.length = 1) := by
  decide

theorem writeProp_enqueuedM (wid k : Nat) (v w0 : Int) (ps : List Int) :
    writeProp wid k v (enqueuedM wid ps w0) =
      enqueuedM wid (if v = ps.getD k 0 then ps else ps.set k v) w0 := by
  by_cases hv : v = ps.getD k 0
  · rw [if_pos hv]
    show (if v = (enqueuedM wid ps w0).props.getD k 0 then enqueuedM wid ps w0
      else queueWatcherM wid
        { enqueuedM wid ps w0 with props := (enqueuedM wid ps w0).props.set k v }) =
      enqueuedM wid ps w0
    rw [if_pos (show v = (enqueuedM wid ps w0).props.getD k 0 from hv)]
  · rw [if_neg hv]
    show (if v = (enqueuedM wid ps w0).props.getD k 0 then enqueuedM wid ps w0
      else queueWatcherM wid
        { enqueuedM wid ps w0 with props := (enqueuedM wid ps w0).props.set k v }) =
      enqueuedM wid (ps.set k v) w0
    rw [if_neg (show ¬(v = (enqueuedM wid ps w0).props.getD k 0) from hv)]
    show (if wid ∈ [wid] then ({ enqueuedM wid ps w0 with props := ps.set k v } : MState)
      else _) = enqueuedM wid (ps.set k v) w0
    rw [if_pos (List.mem_singleton.mpr rfl)]
    rfl

theorem syncWritesM_from_enqueued (wid : Nat) (w0 : Int) (ws : List (Nat × Int)) :
    ∀ ps, syncWritesM wid ws (enqueuedM wid ps w0) =
      enqueuedM wid (chainProps ps ws) w0 := by
  induction ws with
  | nil =>
    intro ps
    rfl
  | cons p ws ih =>
    obtain ⟨k, v⟩ := p
    intro ps
    show syncWritesM wid ws (writeProp wid k v (enqueuedM wid ps w0)) =
      enqueuedM wid (chainProps (if v = ps.getD k 0 then ps else ps.set k v) ws) w0
    rw [writeProp_enqueuedM wid k v w0 ps, ih]

theorem writeProp_pristine_effective (wid k : Nat) (v w0 : Int) (ps : List Int)
    (hv : ¬(v = ps.getD k 0)) :
    writeProp wid k v (initialMState ps w0) = enqueuedM wid (ps.set k v) w0 := by
  show (if v = (initialMState ps w0).props.getD k 0 then initialMState ps w0
    else queueWatcherM wid
      { initialMState ps w0 with props := (initialMState ps w0).props.set k v }) =
    enqueuedM wid (ps.set k v) w0
  rw [if_neg (show ¬(v = (initialMState ps w0).props.getD k 0) from hv)]
  show (if wid ∈ ([] : List Nat) then _ else _) = enqueuedM wid (ps.set k v) w0
  rw [if_neg (List.not_mem_nil wid)]
  rfl

theorem syncWritesM_pristine (wid : Nat) (w0 : Int) (ws : List (Nat × Int)) :
    ∀ ps, 1 ≤ effectiveCountM ps ws →
      syncWritesM wid ws (initialMState ps w0) =
        enqueuedM wid (chainProps ps ws) w0 := by
  induction ws with
  | nil =>
    intro ps h
    simp [effectiveCountM] at h
  | cons p ws ih =>
    obtain ⟨k, v⟩ := p
    intro ps h
    show syncWritesM wid ws (writeProp wid k v (initialMState ps w0)) =
      enqueuedM wid (chainProps ps ((k, v) :: ws)) w0
    by_cases hv : v = ps.getD k 0
    · have hw : writeProp wid k v (initialMState ps w0) = initialMState ps w0 := by
        show (if v = (initialMState ps w0).props.getD k 0 then _ else _) = _
        rw [if_pos (show v = (initialMState ps w0).props.getD k 0 from hv)]
      rw [hw]
      have h2 : 1 ≤ effectiveCountM ps ws := by
        have he : effectiveCountM ps ((k, v) :: ws) = effectiveCountM ps ws := by
          show (if v = ps.getD k 0 then effectiveCountM ps ws else _) = _
          rw [if_pos hv]
        rw [he] at h
        exact h
      have hc : chainProps ps ((k, v) :: ws) = chainProps ps ws := by
        show chainProps (if v = ps.getD k 0 then ps else ps.set k v) ws = _
        rw [if_pos hv]
      rw [hc]
      exact ih ps h2
    · rw [writeProp_pristine_effective wid k v w0 ps hv,
          syncWritesM_from_enqueued wid w0 ws (ps.set k v)]
      have hc : chainProps ps ((k, v) :: ws) = chainProps (ps.set k v) ws := by
        show chainProps (if v = ps.getD k 0 then ps else ps.set k v) ws = _
        rw [if_neg hv]
      rw [hc]

theorem microtask_flush_enqueuedM (getter : List Int → Int) (wid : Nat)
    (ps : List Int) (w0 : Int) :
    (microtaskBoundaryM getter wid true 2 (enqueuedM wid ps w0)).runLog = [wid] := by
  have hsched : ¬((enqueuedM wid ps w0).scheduled = 0) := by
    simp [enqueuedM, initialMState]
  rw [microtaskBoundaryM, if_neg hsched]
  by_cases hval : getter ps = w0 <;>
    simp [flushSchedulerQueueM, flushLoopM, runWatcherM, enqueuedM, initialMState,
          sortQueue, MAX_UPDATE_COUNT, hval]

/-- Claim C2 (amended): for every non-lazy, non-sync watcher observing a
set of reactive properties, N synchronous writes (N >= 1) to those
properties within one call stack, at least one of which is not
equality-short-circuited (it changes the stored value of its property),
cause exactly one invocation of run() at the next microtask boundary:
after the burst a single flush is scheduled and run() has not fired, and
the flush then runs the watcher exactly once, however many distinct
properties were written. In the spec scenario (count 0 written to 1, 2, 3
synchronously) the user callback fires exactly once with newValue 3 and
oldValue 0, after the synchronous turn. -/
theorem batching_set_of_props_single_run (getter : List Int → Int) (wid : Nat)
    (w0 : Int) (ps : List Int) (ws : List (Nat × Int))
    (_hks : ∀ p ∈ ws, p.1 < ps.length)
    (h : 1 ≤ effectiveCountM ps ws) :
    (syncWritesM wid ws (initialMState ps w0)).scheduled = 1 ∧
    (syncWritesM wid ws (initialMState ps w0)).runLog = [] ∧
    (microtaskBoundaryM getter wid true 2
      (syncWritesM wid ws (initialMState ps w0))).runLog = [wid] ∧
    (microtaskBoundaryM (fun l => l.getD 0 0) 1 true 2
      (syncWritesM 1 [(0, 1), (0, 2), (0, 3)] (initialMState [0] 0))).cbLog = [(3, 0)] ∧
    (microtaskBoundaryM (fun l => l.getD 0 0) 1 true 2
      (syncWritesM 1 [(0, 1), (0, 2), (0, 3)] (initialMState [0] 0))).runLog = [1] := by
  have hs := syncWritesM_pristine wid w0 ws ps h
  refine ⟨?_, ?_, ?_, ?_, ?_⟩
  · rw [hs]
    rfl
  · rw [hs]
    rfl
  · rw [hs]
    exact microtask_flush_enqueuedM getter wid (chainProps ps ws) w0
  · decide
  · decide

/-- Witness for C2 (amended): a burst writing two distinct properties
(index 0 to 5, index 1 to 7) observed by the same watcher schedules one
flush and the watcher over both properties runs exactly once. -/
theorem batching_set_of_props_single_run_w :
    (syncWritesM 1 [(0, 5), (1, 7)] (initialMState [0, 0] 0)).scheduled = 1 ∧
    (microtaskBoundaryM (fun l => l.getD 0 0 + l.getD 1 0) 1 true 2
      (syncWritesM 1 [(0, 5), (1, 7)] (initialMState [0, 0] 0))).runLog = [1] :=
  ⟨(batching_set_of_props_single_run (fun l => l.getD 0 0 + l.getD 1 0) 1 0 [0, 0]
      [(0, 5), (1, 7)] (by decide) (by decide)).1,
   (batching_set_of_props_single_run (fun l => l.getD 0 0 + l.getD 1 0) 1 0 [0, 0]
      [(0, 5), (1, 7)] (by decide) (by decide)).2.2.1⟩

set_option maxRecDepth 100000 in
/-- Claim C5: when a watcher keeps re-entering the queue within one flush
(here its user callback writes a fresh value into the watched property on
every run), the circular counter passes MAX_UPDATE_COUNT (100) and the
flush loop breaks: run() has been invoked exactly 101 times, the
likely-infinite-update-loop report identifies whether the runaway watcher
is user-defined or a render watcher, and the re-enqueued tail entry of the
queue is left unprocessed. -/
theorem flush_runaway_aborts (user : Bool) :
    (flushLoop incCbWrite 1 user 300 runawayStart).report = some user ∧
    (flushLoop incCbWrite 1 user 300 runawayStart).runLog.length = MAX_UPDATE_COUNT + 1 ∧
    (flushLoop incCbWrite 1 user 300 runawayStart).index + 1 <
      (flushLoop incCbWrite 1 user 300 runawayStart).queue.length := by
  cases user <;> decide

end VueCore
